import Mathlib

/-!
Verification of `secure_zipper_pro.py` (rancorder/secure_zipper_pro).

The development shallowly embeds the core of the program:

* `PasswordGenerator.generate` (source lines 110-129) as a fuel-indexed
  rejection-sampling loop over an abstract secure random source;
* `SecureArchiver._add_file` / `_add_folder` (lines 323-347) over a flat
  filesystem-enumeration model;
* `FileVerifier.verify_zip_integrity` / `test_extraction` (lines 135-206)
  over an abstract AES zip archive;
* `SecureArchiver._atomic_write` / `create_archive` (lines 239-302) as a
  small-step state model of the two on-disk paths (final and staging),
  with fault injection for build failure, rename failure and unlink
  failure, producing the full trace of externally observable states.
-/

namespace SecureZipper

/-! ### Config (source lines 59-69)

`Config.PASSWORD_CHARS = string.ascii_letters + string.digits + "!@#$%^&*"`
and `Config.PASSWORD_LENGTH = 16`. Python's `string.ascii_letters` is the
lowercase letters followed by the uppercase letters. -/

def asciiLetters : String := "abcdefghijklmnopqrstuvwxyzABCDEFGHIJKLMNOPQRSTUVWXYZ"

def digitsStr : String := "0123456789"

def symbolsStr : String := "!@#$%^&*"

def PASSWORD_CHARS : String := asciiLetters ++ digitsStr ++ symbolsStr

def PASSWORD_LENGTH : Nat := 16

/-- The alphabet as a list of characters (the domain of `secrets.choice`). -/
def alphabetList : List Char := PASSWORD_CHARS.toList

/-- The symbol set checked by the membership test `c in "!@#$%^&*"`
on source line 128. -/
def symList : List Char := symbolsStr.toList

/-- The acceptance test of the rejection loop (source lines 126-128):
`any(c.isdigit()) and any(c.isalpha()) and any(c in "!@#$%^&*")`.
On the ASCII alphabet the program draws from, Python's `str.isdigit` and
`str.isalpha` agree with `Char.isDigit` and `Char.isAlpha`. -/
def passwordOk (p : List Char) : Bool :=
  (p.any fun c => c.isDigit) && (p.any fun c => c.isAlpha) &&
    (p.any fun c => symList.contains c)

/-- One sample of the loop body (source line 125):
`''.join(secrets.choice(alphabet) for _ in range(length))`. The secure
random source is abstracted as `choose i j`, the index into the alphabet
drawn at loop iteration `i` for position `j`. -/
def sampleAt (choose : Nat → Nat → Fin alphabetList.length) (length i : Nat) :
    List Char :=
  (List.range length).map fun j => alphabetList.get (choose i j)

/-- The `while True` rejection loop of `PasswordGenerator.generate`
(source lines 124-129), observed for at most `fuel` iterations starting at
iteration `i`. `none` means the loop has not returned within `fuel`
iterations; the source code has no other exit from the loop and no length
validation of any kind. -/
def generateFrom (choose : Nat → Nat → Fin alphabetList.length)
    (length i fuel : Nat) : Option (List Char) :=
  match fuel with
  | 0 => none
  | Nat.succ f =>
    let p := sampleAt choose length i
    if passwordOk p then some p else generateFrom choose length (i + 1) f

/-- The function `PasswordGenerator.generate(length)` (source line 111), starting the
loop at iteration 0. -/
def generate (choose : Nat → Nat → Fin alphabetList.length)
    (length fuel : Nat) : Option (List Char) :=
  generateFrom choose length 0 fuel

/-- An index into the alphabet, used to build concrete random sources for
witnesses. Positions 0-25 are the lowercase letters, 26-51 the uppercase
letters, 52-61 the digits, 62-69 the symbols. -/
def finChar (n : Nat) : Fin alphabetList.length :=
  ⟨n % alphabetList.length, Nat.mod_lt _ (by decide)⟩

/-- A concrete random source whose first sample is `'0'`, `'!'`, then
`'a'` repeated: it is accepted on the first iteration for any requested
length of at least 3. -/
def chooseW : Nat → Nat → Fin alphabetList.length := fun _ j =>
  finChar (if j = 0 then 52 else if j = 1 then 62 else 0)

/-! ### Filesystem enumeration model for the builder
(`SecureArchiver._add_file`, lines 323-328, and `_add_folder`,
lines 330-347)

`_add_folder` iterates `folder_path.rglob('*')` and, for each yielded path
with `is_file()` true, writes it under `file_path.relative_to(folder_path)`.
The enumeration is modelled as a list of nodes, each an absolute path (a
list of components) together with what kind of filesystem object it is.
Python's `Path.is_file()` follows symbolic links: it is true for a regular
file and for a symlink whose target is a regular file, and false for a
directory, a symlink to a directory, and a dangling symlink; `rglob` does
not itself descend through symlinked directories, so those appear as
single nodes. -/

inductive EntryKind where
  | regular
  | directory
  | symlinkFile
  | symlinkOther
deriving DecidableEq, Repr

/-- One path yielded by `folder_path.rglob('*')`: its absolute path as a
component list, and the kind of object it denotes. -/
structure FsNode where
  path : List String
  kind : EntryKind
deriving DecidableEq, Repr

/-- Python's `Path.is_file()` (used on source line 340): true for regular
files and for symlinks resolving to regular files. -/
def pyIsFile : EntryKind → Bool
  | EntryKind.regular => true
  | EntryKind.symlinkFile => true
  | _ => false

/-- Python's `file_path.relative_to(folder_path)` (source line 342) for a path
lying under `root`. -/
def relativeTo (root p : List String) : List String :=
  p.drop root.length

/-- The method `SecureArchiver._add_folder` (source lines 330-347): the list of
archive entry names written, in enumeration order. -/
def addFolder (root : List String) (nodes : List FsNode) : List (List String) :=
  (nodes.filter fun n => pyIsFile n.kind).map fun n => relativeTo root n.path

/-- The method `SecureArchiver._add_file` (source lines 323-328): one entry, named by
the explicit `arcname` when given and by `file_path.name` (the last path
component) otherwise. -/
def addFile (filePath : List String) (arcname : Option String) :
    List (List String) :=
  [[(arcname.getD (filePath.getLastD ""))]]

/-! ### Abstract AES zip archive and `FileVerifier` (source lines 132-206)

An archive is modelled by the credential it was encrypted with, and its
entries; each entry carries its name and whether its stored checksum
matches its data. `pyzipper.AESZipFile` raises
`RuntimeError("Bad password ...")` as soon as an entry is opened with the
wrong credential, and `testzip()` returns the name of the first entry
whose checksum fails. Entry names are readable without the credential
(`namelist()` reads the central directory), so the empty check on source
line 154 happens before any password check. -/

structure ZipEntry where
  name : List String
  crcOk : Bool
deriving DecidableEq, Repr

structure ZipArchive where
  password : List Char
  entries : List ZipEntry
deriving DecidableEq, Repr

/-- The archive the build phase of `create_archive` writes (source lines
277-289): every entry is written under the generated credential with a
correct checksum, named by `_add_file`/`_add_folder`. -/
def buildArchive (pwd : List Char) (names : List (List String)) : ZipArchive :=
  ⟨pwd, names.map fun nm => ⟨nm, true⟩⟩

/-- The outcome messages of `FileVerifier.verify_zip_integrity`, one per
return site of the source:
`emptyZip` is `"ZIPファイルが空です"` (line 155), `corruptFile` is
`"破損ファイル検出: ..."` (line 160), `ok` is `"検証成功（...ファイル）"`
(line 163), `badPassword` is `"パスワードが正しくありません"` (line 167),
`runtimeError` is `"検証エラー: ..."` (line 168) and `unexpectedError` is
`"予期しないエラー: ..."` (line 170). -/
inductive VerifyMsg where
  | emptyZip
  | corruptFile (name : List String)
  | ok (count : Nat)
  | badPassword
  | runtimeError (msg : String)
  | unexpectedError (msg : String)
deriving DecidableEq, Repr

/-- The method `FileVerifier.verify_zip_integrity` (source lines 135-170): open the
archive, set the password, fail on an empty name list, then run
`testzip()`; a wrong password surfaces as the caught
`RuntimeError("Bad password ...")`, a checksum mismatch as the name
returned by `testzip()`. -/
def verify_zip_integrity (a : ZipArchive) (pwd : List Char) :
    Bool × VerifyMsg :=
  if a.entries.isEmpty then (false, VerifyMsg.emptyZip)
  else if pwd = a.password then
    match a.entries.find? (fun e => !e.crcOk) with
    | some e => (false, VerifyMsg.corruptFile e.name)
    | none => (true, VerifyMsg.ok a.entries.length)
  else (false, VerifyMsg.badPassword)

/-- The outcome messages of `FileVerifier.test_extraction`: `ok` is
`"展開テスト成功（...ファイル）"` (line 199) carrying the number of
extracted regular files; the failures are the caught exception rendered
into `"展開テスト失敗: ..."` (line 202), distinguished here by what
`extractall` raised. -/
inductive ExtractMsg where
  | ok (count : Nat)
  | failedBadPassword
  | failedCorrupt (name : List String)
deriving DecidableEq, Repr

/-- The method `FileVerifier.test_extraction` (source lines 172-206): extract every
entry into a scratch directory and count the extracted regular files;
`extractall` raises on a wrong password or on a corrupt entry, and the
handler turns the exception into a failure result. (The scratch-directory
lifecycle is modelled at the pipeline level by `testExtractionW`.) -/
def test_extraction (a : ZipArchive) (pwd : List Char) : Bool × ExtractMsg :=
  if pwd = a.password then
    match a.entries.find? (fun e => !e.crcOk) with
    | some e => (false, ExtractMsg.failedCorrupt e.name)
    | none => (true, ExtractMsg.ok a.entries.length)
  else (false, ExtractMsg.failedBadPassword)

/-! ### `SecureArchiver._atomic_write` and `create_archive`
(source lines 239-302)

The on-disk state relevant to a run is the content of the final output
path and of the staging path `final_path.with_suffix('.tmp')` (always a
distinct path, since the final path ends in `.zip`). A file holds either
unrelated pre-operation content, a partially written archive (the zip
writer has produced `n` entries and no central directory yet), or a fully
written archive.

Faults are injected where the real operations can fail: `failAt = some j`
makes the zip build raise after writing `j` entries (disk full, vanished
source file, ...), `replaceFails` makes `temp_path.replace(final_path)`
raise, and `unlinkFails` makes the `temp_path.unlink()` in the `except`
handler raise (e.g. directory permissions revoked between the write and
the cleanup). `atomicWrite` returns every externally observable on-disk
state of the run, in order, together with the end state and the outcome. -/

inductive FileData where
  | pre (id : Nat)
  | building (entriesWritten : Nat)
  | full (a : ZipArchive)
deriving DecidableEq, Repr

/-- The two paths a run of `create_archive` may write to. -/
structure FS where
  final : Option FileData
  temp : Option FileData
deriving DecidableEq, Repr

def withTemp (s : FS) (d : Option FileData) : FS :=
  ⟨s.final, d⟩

inductive PyErr where
  | sourceNotFound
  | buildErr
  | replaceErr
  | unlinkErr
  | integrityErr
  | extractionErr
deriving DecidableEq, Repr

/-- The `except` handler of `_atomic_write` (source lines 251-255):
`if temp_path.exists(): temp_path.unlink()` then a bare `raise` of the
original error `e`. When the unlink itself raises, the unlink error
propagates out of the handler and the bare `raise` is never reached. -/
def cleanup (s : FS) (e : PyErr) (unlinkFails : Bool) :
    FS × Except PyErr Unit :=
  match s.temp with
  | none => (s, Except.error e)
  | some _ =>
    if unlinkFails then (s, Except.error PyErr.unlinkErr)
    else (withTemp s none, Except.error e)

/-- The context manager `SecureArchiver._atomic_write` around the zip-build body of
`create_archive` (source lines 239-255 and 275-295): write the archive
`a` entry by entry into the staging path, on success atomically replace
the final path with it in a single step, on any failure run the `except`
handler. The first component is the full list of observable states,
starting from `s0`. -/
def atomicWrite (s0 : FS) (a : ZipArchive) (failAt : Option Nat)
    (replaceFails unlinkFails : Bool) :
    List FS × FS × Except PyErr Unit :=
  let k := a.entries.length
  match failAt with
  | some j =>
    let jStop := min j k
    let tr := (List.range (jStop + 1)).map fun i =>
      withTemp s0 (some (FileData.building i))
    let sLast := withTemp s0 (some (FileData.building jStop))
    let c := cleanup sLast PyErr.buildErr unlinkFails
    (s0 :: tr ++ [c.1], c.1, c.2)
  | none =>
    let tr := ((List.range (k + 1)).map fun i =>
        withTemp s0 (some (FileData.building i))) ++
      [withTemp s0 (some (FileData.full a))]
    let sDone := withTemp s0 (some (FileData.full a))
    if replaceFails then
      let c := cleanup sDone PyErr.replaceErr unlinkFails
      (s0 :: tr ++ [c.1], c.1, c.2)
    else
      (s0 :: tr ++ [⟨some (FileData.full a), none⟩],
        ⟨some (FileData.full a), none⟩, Except.ok ())

/-! ### The whole pipeline: `SecureArchiver.__init__`, `create_archive`
and `_verify_archive` (source lines 216-321)

`World` extends the two on-disk paths with the other observable side
effects the spec names: the number of credentials generated, and of
extraction scratch directories created and currently existing. -/

structure World where
  sourceExists : Bool
  fsFinal : Option FileData
  fsTemp : Option FileData
  credentials : Nat
  scratchCreated : Nat
  scratchLive : Nat
deriving DecidableEq, Repr

/-- The clamp `max(0, min(9, compression_level))` (source line 225). -/
def clampLevel (lvl : Int) : Int := max 0 (min 9 lvl)

/-- The source the caller hands to the pipeline: a single regular file or
a directory together with its `rglob` enumeration. -/
inductive SourceSpec where
  | file (path : List String)
  | dir (root : List String) (nodes : List FsNode)
deriving Repr

/-- The dispatch on `self.source_path.is_file()` in `create_archive`
(source lines 286-289): `_add_file` for a file, `_add_folder` for a
directory. -/
def sourceEntries : SourceSpec → List (List String)
  | SourceSpec.file p => addFile p none
  | SourceSpec.dir root nodes => addFolder root nodes

/-- The method `FileVerifier.test_extraction` at the world level (source lines
184-206): `tempfile.mkdtemp` creates the scratch directory, and the
`finally` block always runs `shutil.rmtree(temp_dir, ignore_errors=True)`,
which by construction cannot raise; the directory is gone on every exit
path. -/
def testExtractionW (w : World) (a : ZipArchive) (pwd : List Char) :
    World × Bool :=
  let w1 : World := ⟨w.sourceExists, w.fsFinal, w.fsTemp, w.credentials,
    w.scratchCreated + 1, w.scratchLive + 1⟩
  let ok := (test_extraction a pwd).1
  (⟨w1.sourceExists, w1.fsFinal, w1.fsTemp, w1.credentials,
    w1.scratchCreated, w1.scratchLive - 1⟩, ok)

/-- All the fault-injection and randomness parameters of one run. -/
structure RunCfg where
  choose : Nat → Nat → Fin alphabetList.length
  fuel : Nat
  source : SourceSpec
  failAt : Option Nat
  replaceFails : Bool
  unlinkFails : Bool
  verify : Bool

/-- The tail of `create_archive` after the `_atomic_write` block (source
lines 293-302): on a build/commit error re-raise it; otherwise, when
`verify` is set, run `_verify_archive` (integrity check then extraction
test, source lines 304-321), each failure raised as a `RuntimeError`;
finally return the credential. -/
def commitResult (w2 : World) (tr : List FS) (a : ZipArchive)
    (pwd : List Char) (doVerify : Bool) (r0 : Except PyErr Unit) :
    World × List FS × Except PyErr (List Char) :=
  match r0 with
  | Except.error e => (w2, tr, Except.error e)
  | Except.ok _ =>
    if doVerify then
      if (verify_zip_integrity a pwd).1 = false then
        (w2, tr, Except.error PyErr.integrityErr)
      else
        let te := testExtractionW w2 a pwd
        if te.2 = false then (te.1, tr, Except.error PyErr.extractionErr)
        else (te.1, tr, Except.ok pwd)
    else (w2, tr, Except.ok pwd)

/-- The method `SecureArchiver.create_archive` (source lines 257-302): generate the
credential with `PasswordGenerator.generate()` — no length argument, so
the default `Config.PASSWORD_LENGTH` — then build the archive inside
`_atomic_write` and hand the outcome to `commitResult`. The result is the
end world, the trace of on-disk states, and either the returned
credential or the propagated error; `none` means the credential loop
itself never returned. -/
def create_archive (w : World) (cfg : RunCfg) :
    Option (World × List FS × Except PyErr (List Char)) :=
  match generate cfg.choose PASSWORD_LENGTH cfg.fuel with
  | none => none
  | some pwd =>
    let a := buildArchive pwd (sourceEntries cfg.source)
    let res := atomicWrite ⟨w.fsFinal, w.fsTemp⟩ a cfg.failAt
      cfg.replaceFails cfg.unlinkFails
    some (commitResult
      ⟨w.sourceExists, res.2.1.final, res.2.1.temp, w.credentials + 1,
        w.scratchCreated, w.scratchLive⟩
      res.1 a pwd cfg.verify res.2.2)

/-- Constructing the archiver and running `create_archive`:
`SecureArchiver.__init__` (source lines 216-230) resolves the source path
and raises `FileNotFoundError` when it does not exist, before anything
else happens. -/
def runPipeline (w : World) (cfg : RunCfg) :
    Option (World × List FS × Except PyErr (List Char)) :=
  if w.sourceExists then create_archive w cfg
  else some (w, [], Except.error PyErr.sourceNotFound)

/-- The predicate `pyIsFile` is true on every regular file; the remaining concrete
values below are the inputs of the witnesses and counterexamples. -/
def isRegular : EntryKind → Bool
  | EntryKind.regular => true
  | _ => false

/-- The directory `D` of the spec scenario: `D/a.txt`, `D/sub`,
`D/sub/b.txt`, as `D.rglob('*')` enumerates them. -/
def dNodes : List FsNode :=
  [⟨["D", "a.txt"], EntryKind.regular⟩,
   ⟨["D", "sub"], EntryKind.directory⟩,
   ⟨["D", "sub", "b.txt"], EntryKind.regular⟩]

/-- A directory whose only child is a symbolic link to a regular file
stored elsewhere. -/
def symNodes : List FsNode :=
  [⟨["D", "link.txt"], EntryKind.symlinkFile⟩]

/-- A directory mixing regular files, a subdirectory and a dangling
symlink. -/
def mixNodes : List FsNode :=
  [⟨["D", "a.txt"], EntryKind.regular⟩,
   ⟨["D", "sub"], EntryKind.directory⟩,
   ⟨["D", "sub", "b.txt"], EntryKind.regular⟩,
   ⟨["D", "dead"], EntryKind.symlinkOther⟩]

/-- A world whose source path does not exist; the final output path holds
unrelated pre-existing content. -/
def wNoSource : World := ⟨false, some (FileData.pre 7), none, 0, 0, 0⟩

/-- A world whose source path exists and whose output paths are free. -/
def wSrc : World := ⟨true, none, none, 0, 0, 0⟩

/-- A fault-free run configuration on a single-file source. -/
def cfgPlain : RunCfg :=
  ⟨chooseW, 1, SourceSpec.file ["home", "report.pdf"], none, false, false, true⟩

/-- A run whose build fails immediately and whose staging unlink also
fails. -/
def cfgUnlinkFail : RunCfg :=
  ⟨chooseW, 1, SourceSpec.file ["home", "report.pdf"], some 0, false, true, true⟩

/-- A run whose build fails immediately and whose staging unlink
succeeds. -/
def cfgBuildFail : RunCfg :=
  ⟨chooseW, 1, SourceSpec.file ["home", "report.pdf"], some 0, false, false, true⟩

/-- The archive used by the cleanup counterexamples. -/
def archC9 : ZipArchive := buildArchive ['p'] [["x.txt"], ["y.txt"]]

/-- The credential `chooseW` produces at the default length 16. -/
def pwdC10 : List Char :=
  ['0', '!', 'a', 'a', 'a', 'a', 'a', 'a', 'a', 'a', 'a', 'a', 'a', 'a', 'a', 'a']

/-- The archive a fault-free run of `cfgPlain` commits. -/
def archC10 : ZipArchive := buildArchive pwdC10 [["report.pdf"]]

/-- The end world of a fault-free run of `cfgPlain` from `wSrc`. -/
def w2C10 : World := ⟨true, some (FileData.full archC10), none, 1, 1, 0⟩

/-- The on-disk trace of a fault-free run of `cfgPlain` from `wSrc`. -/
def trC10 : List FS :=
  [⟨none, none⟩, ⟨none, some (FileData.building 0)⟩,
   ⟨none, some (FileData.building 1)⟩, ⟨none, some (FileData.full archC10)⟩,
   ⟨some (FileData.full archC10), none⟩]

/-- The end world of a build-failure run of `cfgBuildFail` from `wSrc`. -/
def w2C1 : World := ⟨true, none, none, 1, 0, 0⟩

/-- The on-disk trace of a build-failure run of `cfgBuildFail` from
`wSrc`. -/
def trC1 : List FS :=
  [⟨none, none⟩, ⟨none, some (FileData.building 0)⟩, ⟨none, none⟩]

/-! ### Lemmas and the claims -/

/-- In the alphabet, the three character classes tested by the loop are
pairwise exclusive: no character is simultaneously a digit and a letter, a
digit and a symbol, or a letter and a symbol. -/
theorem alphabet_classes_exclusive :
    ∀ c ∈ alphabetList,
      (c.isDigit && c.isAlpha) = false ∧
      (c.isDigit && symList.contains c) = false ∧
      (c.isAlpha && symList.contains c) = false := by decide

theorem sampleAt_length (choose : Nat → Nat → Fin alphabetList.length)
    (length i : Nat) : (sampleAt choose length i).length = length := by
  simp [sampleAt]

theorem sampleAt_mem (choose : Nat → Nat → Fin alphabetList.length)
    (length i : Nat) : ∀ c ∈ sampleAt choose length i, c ∈ alphabetList := by
  intro c hc
  obtain ⟨j, -, rfl⟩ := List.mem_map.mp hc
  exact List.get_mem _ _ _

/-- A sample of fewer than three characters drawn from the alphabet can
never pass the acceptance test: with only two positions, two of the three
required character classes would have to coincide on one character,
contradicting `alphabet_classes_exclusive`. -/
theorem passwordOk_short {p : List Char} (hmem : ∀ c ∈ p, c ∈ alphabetList)
    (hlen : p.length < 3) : passwordOk p = false := by
  match p with
  | [] => rfl
  | [a] =>
    have ha := alphabet_classes_exclusive a (hmem a (by simp))
    simp only [passwordOk, List.any_cons, List.any_nil, Bool.or_false]
    cases h1 : a.isDigit <;> cases h2 : a.isAlpha <;>
      cases h3 : symList.contains a <;> simp_all
  | [a, b] =>
    have ha := alphabet_classes_exclusive a (hmem a (by simp))
    have hb := alphabet_classes_exclusive b (hmem b (by simp))
    simp only [passwordOk, List.any_cons, List.any_nil, Bool.or_false]
    cases h1 : a.isDigit <;> cases h2 : a.isAlpha <;>
      cases h3 : symList.contains a <;> cases h4 : b.isDigit <;>
      cases h5 : b.isAlpha <;> cases h6 : symList.contains b <;> simp_all
  | _ :: _ :: _ :: _ => simp at hlen; omega

/-- For a requested length below 3 the rejection loop never returns:
every iteration rejects its sample, for any behaviour of the random
source. -/
theorem generateFrom_none_of_short (choose : Nat → Nat → Fin alphabetList.length)
    {length : Nat} (hlen : length < 3) (i fuel : Nat) :
    generateFrom choose length i fuel = none := by
  induction fuel generalizing i with
  | zero => rfl
  | succ f ih =>
    have hok : passwordOk (sampleAt choose length i) = false :=
      passwordOk_short (sampleAt_mem choose length i)
        (by rw [sampleAt_length]; exact hlen)
    simp only [generateFrom, hok, if_neg]
    exact ih (i + 1)

/-- Anything the loop returns is the sample accepted on some iteration:
it has the requested length, is drawn from the alphabet, and passes the
composition test. -/
theorem generateFrom_some_spec (choose : Nat → Nat → Fin alphabetList.length)
    (length i fuel : Nat) (p : List Char)
    (h : generateFrom choose length i fuel = some p) :
    p.length = length ∧ (∀ c ∈ p, c ∈ alphabetList) ∧ passwordOk p = true := by
  induction fuel generalizing i with
  | zero => simp [generateFrom] at h
  | succ f ih =>
    by_cases hok : passwordOk (sampleAt choose length i) = true
    · simp only [generateFrom, hok, if_pos] at h
      obtain rfl : sampleAt choose length i = p := Option.some.inj h
      exact ⟨sampleAt_length choose length i, sampleAt_mem choose length i, hok⟩
    · simp only [generateFrom, hok, if_neg, Bool.not_eq_true] at h
      exact ih (i + 1) h

/-- For any requested length of at least 3, the sample `chooseW` draws is
accepted on the first iteration, so the loop returns it with one unit of
fuel. -/
theorem generate_chooseW (length : Nat) (h3 : 3 ≤ length) :
    generate chooseW length 1 = some (sampleAt chooseW length 0) := by
  have h0 : alphabetList.get (chooseW 0 0) ∈ sampleAt chooseW length 0 :=
    List.mem_map.mpr ⟨0, List.mem_range.mpr (by omega), rfl⟩
  have h1 : alphabetList.get (chooseW 0 1) ∈ sampleAt chooseW length 0 :=
    List.mem_map.mpr ⟨1, List.mem_range.mpr (by omega), rfl⟩
  have h2 : alphabetList.get (chooseW 0 2) ∈ sampleAt chooseW length 0 :=
    List.mem_map.mpr ⟨2, List.mem_range.mpr (by omega), rfl⟩
  have hok : passwordOk (sampleAt chooseW length 0) = true := by
    refine Bool.and_eq_true_iff.mpr ⟨Bool.and_eq_true_iff.mpr ⟨?_, ?_⟩, ?_⟩
    · exact List.any_eq_true.mpr ⟨_, h0, by decide⟩
    · exact List.any_eq_true.mpr ⟨_, h2, by decide⟩
    · exact List.any_eq_true.mpr ⟨_, h1, by decide⟩
  simp [generate, generateFrom, hok]

theorem relativeTo_append (root r : List String) :
    relativeTo root (root ++ r) = r := by
  simp [relativeTo]

theorem addFolder_mem_spec (root : List String) (nodes : List FsNode) :
    ∀ e ∈ addFolder root nodes,
      ∃ n, n ∈ nodes ∧ pyIsFile n.kind = true ∧ relativeTo root n.path = e := by
  intro e he
  obtain ⟨n, hn, rfl⟩ := List.mem_map.mp he
  exact ⟨n, (List.mem_filter.mp hn).1, (List.mem_filter.mp hn).2, rfl⟩

theorem addFolder_length (root : List String) (nodes : List FsNode) :
    (addFolder root nodes).length =
      (nodes.filter fun n => pyIsFile n.kind).length := by
  simp [addFolder]

theorem addFolder_nodup (root : List String) (nodes : List FsNode)
    (hp : (nodes.map FsNode.path).Nodup)
    (hu : ∀ n ∈ nodes, ∃ r, n.path = root ++ r) :
    (addFolder root nodes).Nodup := by
  have hfilter : List.Sublist
      ((nodes.filter fun n => pyIsFile n.kind).map FsNode.path)
      (nodes.map FsNode.path) :=
    (List.filter_sublist nodes).map FsNode.path
  have hnd : ((nodes.filter fun n => pyIsFile n.kind).map FsNode.path).Nodup :=
    hp.sublist hfilter
  have : addFolder root nodes =
      ((nodes.filter fun n => pyIsFile n.kind).map FsNode.path).map
        (relativeTo root) := by
    simp [addFolder, List.map_map]
  rw [this]
  refine hnd.map_on ?_
  intro x hx y hy hxy
  obtain ⟨nx, hnx, rfl⟩ := List.mem_map.mp hx
  obtain ⟨ny, hny, rfl⟩ := List.mem_map.mp hy
  obtain ⟨rx, hrx⟩ := hu nx (List.mem_of_mem_filter hnx)
  obtain ⟨ry, hry⟩ := hu ny (List.mem_of_mem_filter hny)
  rw [hrx, hry] at hxy ⊢
  rw [relativeTo_append, relativeTo_append] at hxy
  rw [hxy]

theorem buildArchive_entries_length (pwd : List Char)
    (names : List (List String)) :
    (buildArchive pwd names).entries.length = names.length := by
  simp [buildArchive]

theorem buildArchive_crc_all_ok (pwd : List Char) (names : List (List String)) :
    (buildArchive pwd names).entries.find? (fun e => !e.crcOk) = none := by
  rw [List.find?_eq_none]
  intro e he
  obtain ⟨nm, -, rfl⟩ := List.mem_map.mp he
  simp

theorem cleanup_final (s : FS) (e : PyErr) (uF : Bool) :
    ((cleanup s e uF).1).final = s.final := by
  unfold cleanup
  cases s.temp with
  | none => rfl
  | some d => cases uF <;> rfl

/-- Unfolding of `atomicWrite` when the build fails. -/
theorem atomicWrite_some_eq (s0 : FS) (a : ZipArchive) (j : Nat)
    (rF uF : Bool) :
    atomicWrite s0 a (some j) rF uF =
      (s0 :: ((List.range (min j a.entries.length + 1)).map fun i =>
          withTemp s0 (some (FileData.building i))) ++
        [(cleanup (withTemp s0
            (some (FileData.building (min j a.entries.length))))
          PyErr.buildErr uF).1],
        (cleanup (withTemp s0
            (some (FileData.building (min j a.entries.length))))
          PyErr.buildErr uF).1,
        (cleanup (withTemp s0
            (some (FileData.building (min j a.entries.length))))
          PyErr.buildErr uF).2) := rfl

/-- Unfolding of `atomicWrite` when the build succeeds and the rename
fails. -/
theorem atomicWrite_none_true_eq (s0 : FS) (a : ZipArchive) (uF : Bool) :
    atomicWrite s0 a none true uF =
      (s0 :: (((List.range (a.entries.length + 1)).map fun i =>
          withTemp s0 (some (FileData.building i))) ++
          [withTemp s0 (some (FileData.full a))]) ++
        [(cleanup (withTemp s0 (some (FileData.full a)))
          PyErr.replaceErr uF).1],
        (cleanup (withTemp s0 (some (FileData.full a)))
          PyErr.replaceErr uF).1,
        (cleanup (withTemp s0 (some (FileData.full a)))
          PyErr.replaceErr uF).2) := rfl

/-- Unfolding of `atomicWrite` when the build and the rename succeed. -/
theorem atomicWrite_none_false_eq (s0 : FS) (a : ZipArchive) (uF : Bool) :
    atomicWrite s0 a none false uF =
      (s0 :: (((List.range (a.entries.length + 1)).map fun i =>
          withTemp s0 (some (FileData.building i))) ++
          [withTemp s0 (some (FileData.full a))]) ++
        [⟨some (FileData.full a), none⟩],
        ⟨some (FileData.full a), none⟩, Except.ok ()) := rfl

/-- Atomicity of the final path: in every observable state of any run,
the final path holds its pre-operation content (or is still absent), or
holds a fully written archive — never a partially written one. -/
theorem atomicWrite_trace_final (s0 : FS) (a : ZipArchive)
    (failAt : Option Nat) (rF uF : Bool) :
    ∀ s ∈ (atomicWrite s0 a failAt rF uF).1,
      s.final = s0.final ∨ s.final = some (FileData.full a) := by
  have hmap : ∀ m : Nat, ∀ s ∈ (List.range (m + 1)).map fun i =>
      withTemp s0 (some (FileData.building i)),
      s.final = s0.final ∨ s.final = some (FileData.full a) := by
    intro m s hs
    obtain ⟨i, -, rfl⟩ := List.mem_map.mp hs
    exact Or.inl rfl
  cases failAt with
  | some j =>
    rw [atomicWrite_some_eq]
    intro s hs
    rcases List.mem_cons.mp hs with rfl | hs1
    · exact Or.inl rfl
    rcases List.mem_append.mp hs1 with hm | hm
    · exact hmap _ s hm
    · rw [List.mem_singleton] at hm
      rw [hm]
      exact Or.inl (cleanup_final _ _ _)
  | none =>
    cases rF with
    | true =>
      rw [atomicWrite_none_true_eq]
      intro s hs
      rcases List.mem_cons.mp hs with rfl | hs1
      · exact Or.inl rfl
      rcases List.mem_append.mp hs1 with hm | hm
      · rcases List.mem_append.mp hm with hm2 | hm2
        · exact hmap _ s hm2
        · rw [List.mem_singleton] at hm2
          rw [hm2]
          exact Or.inl rfl
      · rw [List.mem_singleton] at hm
        rw [hm]
        exact Or.inl (cleanup_final _ _ _)
    | false =>
      rw [atomicWrite_none_false_eq]
      intro s hs
      rcases List.mem_cons.mp hs with rfl | hs1
      · exact Or.inl rfl
      rcases List.mem_append.mp hs1 with hm | hm
      · rcases List.mem_append.mp hm with hm2 | hm2
        · exact hmap _ s hm2
        · rw [List.mem_singleton] at hm2
          rw [hm2]
          exact Or.inl rfl
      · rw [List.mem_singleton] at hm
        rw [hm]
        exact Or.inr rfl

/-- A build failure with a working unlink: the staging file is removed,
the original build error propagates, and the final path is untouched. -/
theorem atomicWrite_build_fail (s0 : FS) (a : ZipArchive) (j : Nat)
    (rF : Bool) :
    (atomicWrite s0 a (some j) rF false).2.2 = Except.error PyErr.buildErr ∧
    (atomicWrite s0 a (some j) rF false).2.1.temp = none ∧
    (atomicWrite s0 a (some j) rF false).2.1.final = s0.final := by
  unfold atomicWrite cleanup
  simp [withTemp]

/-- On any build failure — whether or not the unlink succeeds — the final
path is untouched. -/
theorem atomicWrite_build_fail_final (s0 : FS) (a : ZipArchive) (j : Nat)
    (rF uF : Bool) :
    (atomicWrite s0 a (some j) rF uF).2.1.final = s0.final := by
  unfold atomicWrite
  exact cleanup_final _ _ _

theorem testExtractionW_fs (w : World) (a : ZipArchive) (pwd : List Char) :
    ((testExtractionW w a pwd).1).fsFinal = w.fsFinal ∧
    ((testExtractionW w a pwd).1).fsTemp = w.fsTemp := by
  constructor <;> rfl

/-- The continuation `commitResult` never touches the two on-disk paths and returns the
trace it is given. -/
theorem commitResult_fs (w2 : World) (tr : List FS) (a : ZipArchive)
    (pwd : List Char) (dv : Bool) (r0 : Except PyErr Unit) :
    ((commitResult w2 tr a pwd dv r0).1).fsFinal = w2.fsFinal ∧
    ((commitResult w2 tr a pwd dv r0).1).fsTemp = w2.fsTemp ∧
    (commitResult w2 tr a pwd dv r0).2.1 = tr := by
  unfold commitResult
  cases r0 with
  | error e => exact ⟨rfl, rfl, rfl⟩
  | ok u =>
    cases dv with
    | false => exact ⟨rfl, rfl, rfl⟩
    | true =>
      by_cases hvi : (verify_zip_integrity a pwd).1 = false
      · simp [hvi]
      · simp only [hvi, if_neg, if_true, not_false_eq_true]
        by_cases hte : (testExtractionW w2 a pwd).2 = false <;> simp [hte] <;>
          exact ⟨rfl, rfl⟩

/-- A build or commit error reaches the caller unchanged. -/
theorem commitResult_error (w2 : World) (tr : List FS) (a : ZipArchive)
    (pwd : List Char) (dv : Bool) (e : PyErr) :
    commitResult w2 tr a pwd dv (Except.error e) =
      (w2, tr, Except.error e) := rfl

/-- A credential is only ever returned by `commitResult` when it is the
generated one. -/
theorem commitResult_ok_pwd (w2 : World) (tr : List FS) (a : ZipArchive)
    (pwd : List Char) (dv : Bool) (r0 : Except PyErr Unit)
    (p : List Char)
    (h : (commitResult w2 tr a pwd dv r0).2.2 = Except.ok p) : p = pwd := by
  unfold commitResult at h
  cases r0 with
  | error e => exact absurd h (by simp)
  | ok u =>
    cases dv with
    | false => exact (Except.ok.inj h).symm
    | true =>
      by_cases hvi : (verify_zip_integrity a pwd).1 = false
      · simp only [hvi, if_pos] at h
        exact absurd h (by simp)
      · simp only [hvi, if_neg, if_true, not_false_eq_true] at h
        by_cases hte : (testExtractionW w2 a pwd).2 = false
        · simp only [hte, if_pos] at h
          exact absurd h (by simp)
        · simp only [hte, if_neg, not_false_eq_true] at h
          exact (Except.ok.inj h).symm

/-- What a completed `create_archive` run tells us: a credential was
generated, the trace and the two on-disk paths come from the
`_atomic_write` run for the archive built from that credential, any
build/commit error propagates unchanged, and a returned credential is the
generated one. -/
theorem create_archive_spec (w : World) (cfg : RunCfg) (w2 : World)
    (tr : List FS) (r : Except PyErr (List Char))
    (h : create_archive w cfg = some (w2, tr, r)) :
    ∃ pwd, generate cfg.choose PASSWORD_LENGTH cfg.fuel = some pwd ∧
      tr = (atomicWrite ⟨w.fsFinal, w.fsTemp⟩
        (buildArchive pwd (sourceEntries cfg.source)) cfg.failAt
        cfg.replaceFails cfg.unlinkFails).1 ∧
      w2.fsFinal = (atomicWrite ⟨w.fsFinal, w.fsTemp⟩
        (buildArchive pwd (sourceEntries cfg.source)) cfg.failAt
        cfg.replaceFails cfg.unlinkFails).2.1.final ∧
      w2.fsTemp = (atomicWrite ⟨w.fsFinal, w.fsTemp⟩
        (buildArchive pwd (sourceEntries cfg.source)) cfg.failAt
        cfg.replaceFails cfg.unlinkFails).2.1.temp ∧
      (∀ e, (atomicWrite ⟨w.fsFinal, w.fsTemp⟩
          (buildArchive pwd (sourceEntries cfg.source)) cfg.failAt
          cfg.replaceFails cfg.unlinkFails).2.2 = Except.error e →
        r = Except.error e) ∧
      (∀ p, r = Except.ok p → p = pwd) := by
  unfold create_archive at h
  cases hg : generate cfg.choose PASSWORD_LENGTH cfg.fuel with
  | none => rw [hg] at h; exact absurd h (by simp)
  | some pwd =>
    rw [hg] at h
    refine ⟨pwd, rfl, ?_⟩
    have h' := Option.some.inj h
    obtain ⟨hw2, htr, hr⟩ : w2 = _ ∧ tr = _ ∧ r = _ := by
      rw [Prod.ext_iff, Prod.ext_iff] at h'
      exact ⟨h'.1.symm, h'.2.1.symm, h'.2.2.symm⟩
    obtain ⟨hcf1, hcf2, hcf3⟩ := commitResult_fs
      ⟨w.sourceExists, _, _, w.credentials + 1, w.scratchCreated, w.scratchLive⟩
      _ (buildArchive pwd (sourceEntries cfg.source)) pwd cfg.verify _
    refine ⟨?_, ?_, ?_, ?_, ?_⟩
    · rw [htr]; exact hcf3
    · rw [hw2]; exact hcf1
    · rw [hw2]; exact hcf2
    · intro e he
      rw [hr, he, commitResult_error]
    · intro p hp
      rw [hr] at hp
      exact commitResult_ok_pwd _ _ _ _ _ _ p hp

theorem pyIsFile_of_isRegular {k : EntryKind} (h : isRegular k = true) :
    pyIsFile k = true := by
  cases k <;> simp_all [isRegular, pyIsFile]

/-- C2: every credential the generator returns for a requested length of
at least 3 has exactly that length, is composed only of characters of
`Config.PASSWORD_CHARS` (ASCII letters, digits and `"!@#$%^&*"`), and
contains at least one digit, at least one letter, and at least one symbol
of that set. -/
theorem C2_credential_composition
    (choose : Nat → Nat → Fin alphabetList.length) (length fuel : Nat)
    (p : List Char) (_h3 : 3 ≤ length)
    (h : generate choose length fuel = some p) :
    p.length = length ∧ (∀ c ∈ p, c ∈ alphabetList) ∧
      (∃ c ∈ p, c.isDigit = true) ∧ (∃ c ∈ p, c.isAlpha = true) ∧
      (∃ c ∈ p, c ∈ symList) := by
  obtain ⟨hlen, hmem, hok⟩ :=
    generateFrom_some_spec choose length 0 fuel p h
  refine ⟨hlen, hmem, ?_, ?_, ?_⟩
  · obtain ⟨c, hc, hd⟩ := List.any_eq_true.mp
      (Bool.and_eq_true_iff.mp (Bool.and_eq_true_iff.mp hok).1).1
    exact ⟨c, hc, hd⟩
  · obtain ⟨c, hc, hd⟩ := List.any_eq_true.mp
      (Bool.and_eq_true_iff.mp (Bool.and_eq_true_iff.mp hok).1).2
    exact ⟨c, hc, hd⟩
  · obtain ⟨c, hc, hd⟩ := List.any_eq_true.mp
      (Bool.and_eq_true_iff.mp hok).2
    exact ⟨c, hc, by simpa using hd⟩

/-- C2 witness: a concrete accepted sample of length 3. -/
theorem C2_witness :
    3 ≤ 3 ∧ generate chooseW 3 1 = some ['0', '!', 'a'] ∧
      (['0', '!', 'a'] : List Char).length = 3 ∧
      (∀ c ∈ (['0', '!', 'a'] : List Char), c ∈ alphabetList) ∧
      (∃ c ∈ (['0', '!', 'a'] : List Char), c.isDigit = true) ∧
      (∃ c ∈ (['0', '!', 'a'] : List Char), c.isAlpha = true) ∧
      (∃ c ∈ (['0', '!', 'a'] : List Char), c ∈ symList) := by
  refine ⟨by decide, by decide, ?_⟩
  exact C2_credential_composition chooseW 3 1 ['0', '!', 'a'] (by decide)
    (by decide)

/-- C3 counterexample: it is false that the generator terminates (with a
result or an explicit error) for every requested length — the code has no
length check at all, and at length 2 the rejection loop never returns, no
matter how the random source behaves or how long it is observed. -/
theorem C3_counterexample :
    ¬ ∀ length : Nat, ∀ choose : Nat → Nat → Fin alphabetList.length,
        ∃ fuel : Nat, (generate choose length fuel).isSome = true := by
  intro h
  obtain ⟨fuel, hf⟩ := h 2 chooseW
  rw [generate, generateFrom_none_of_short chooseW (by decide) 0 fuel] at hf
  exact absurd hf (by decide)

/-- C3 amended: the generator performs no explicit length validation; for
every requested length below 3 the rejection loop never returns (no
sample can satisfy the composition test), while for lengths of at least 3
terminating runs exist; the program's only call site uses the default
`Config.PASSWORD_LENGTH = 16`. -/
theorem C3_short_length_divergence (length : Nat) :
    (length < 3 →
      ∀ (choose : Nat → Nat → Fin alphabetList.length) (i fuel : Nat),
        generateFrom choose length i fuel = none) ∧
    (3 ≤ length →
      ∃ (choose : Nat → Nat → Fin alphabetList.length) (fuel : Nat)
        (p : List Char), generate choose length fuel = some p) ∧
    PASSWORD_LENGTH = 16 :=
  ⟨fun h choose i fuel => generateFrom_none_of_short choose h i fuel,
   fun h3 => ⟨chooseW, 1, sampleAt chooseW length 0, generate_chooseW length h3⟩,
   rfl⟩

/-- C3 witness: at length 2 no fuel makes the loop return; at the default
length 16 a terminating run exists. -/
theorem C3_witness :
    generateFrom chooseW 2 0 9 = none ∧
      ∃ (choose : Nat → Nat → Fin alphabetList.length) (fuel : Nat)
        (p : List Char), generate choose 16 fuel = some p :=
  ⟨(C3_short_length_divergence 2).1 (by decide) chooseW 0 9,
   (C3_short_length_divergence 16).2.1 (by decide)⟩

/-- C4: when archiving a directory, every entry is named by the file's
path relative to the directory itself — `root ++ entry` is the file's
absolute path, so the directory's own name never leaks into the entry —
and when archiving a single file the sole entry is named by the file's
base name. -/
theorem C4_entry_names_relative (root : List String) (nodes : List FsNode)
    (hu : ∀ n ∈ nodes, ∃ r, n.path = root ++ r) :
    (∀ e ∈ addFolder root nodes,
        ∃ n, n ∈ nodes ∧ pyIsFile n.kind = true ∧ n.path = root ++ e) ∧
    (∀ p : List String, addFile p none = [[p.getLastD ""]]) := by
  constructor
  · intro e he
    obtain ⟨n, hn, hf, hrel⟩ := addFolder_mem_spec root nodes e he
    obtain ⟨r, hr⟩ := hu n hn
    refine ⟨n, hn, hf, ?_⟩
    rw [hr] at hrel ⊢
    rw [relativeTo_append] at hrel
    rw [hrel]
  · intro p
    rfl

/-- C4 witness: the spec's own scenario — `D/a.txt` and `D/sub/b.txt`
yield entries `a.txt` and `sub/b.txt`, never `D/a.txt`; a single file
yields its base name. -/
theorem C4_witness :
    (∀ e ∈ addFolder ["D"] dNodes,
        ∃ n, n ∈ dNodes ∧ pyIsFile n.kind = true ∧ n.path = ["D"] ++ e) ∧
    addFolder ["D"] dNodes = [["a.txt"], ["sub", "b.txt"]] ∧
    addFile ["home", "report.pdf"] none = [["report.pdf"]] := by
  refine ⟨(C4_entry_names_relative ["D"] dNodes ?_).1, by decide, by decide⟩
  intro n hn
  fin_cases hn
  · exact ⟨["a.txt"], rfl⟩
  · exact ⟨["sub"], rfl⟩
  · exact ⟨["sub", "b.txt"], rfl⟩

/-- C5 counterexample: the claim "the enumeration adds no entry for
symlinks, so the entry count equals the number of regular files" fails on
a directory containing one symbolic link to a regular file: Python's
`Path.is_file()` follows symlinks, so the builder adds one entry although
the directory holds zero regular files. -/
theorem C5_counterexample :
    (addFolder ["D"] symNodes).length = 1 ∧
    (symNodes.filter fun n => isRegular n.kind).length = 0 := by decide

/-- C5 amended: the builder adds exactly one entry per enumerated path
whose `is_file()` is true — the regular files and the symlinks resolving
to regular files — and none for directories or other symlinks: the entry
count equals the count of such paths, every regular file appears (and,
for an enumeration without duplicate paths, exactly once), every entry
comes from such a path, and a file source yields exactly one entry. -/
theorem C5_entry_count (root : List String) (nodes : List FsNode)
    (hp : (nodes.map FsNode.path).Nodup)
    (hu : ∀ n ∈ nodes, ∃ r, n.path = root ++ r) :
    (addFolder root nodes).length =
      (nodes.filter fun n => pyIsFile n.kind).length ∧
    (addFolder root nodes).Nodup ∧
    (∀ n ∈ nodes, isRegular n.kind = true →
      relativeTo root n.path ∈ addFolder root nodes) ∧
    (∀ e ∈ addFolder root nodes,
      ∃ n, n ∈ nodes ∧ pyIsFile n.kind = true ∧ relativeTo root n.path = e) ∧
    (∀ (p : List String) (a : Option String), (addFile p a).length = 1) := by
  refine ⟨addFolder_length root nodes, addFolder_nodup root nodes hp hu, ?_,
    addFolder_mem_spec root nodes, fun p a => rfl⟩
  intro n hn hreg
  exact List.mem_map.mpr
    ⟨n, List.mem_filter.mpr ⟨hn, pyIsFile_of_isRegular hreg⟩, rfl⟩

/-- C5 witness: a directory with two regular files, a subdirectory and a
dangling symlink yields exactly two entries, without duplicates. -/
theorem C5_witness :
    (addFolder ["D"] mixNodes).length =
      (mixNodes.filter fun n => pyIsFile n.kind).length ∧
    (addFolder ["D"] mixNodes).Nodup := by
  have h := C5_entry_count ["D"] mixNodes (by decide) ?_
  · exact ⟨h.1, h.2.1⟩
  · intro n hn
    fin_cases hn
    · exact ⟨["a.txt"], rfl⟩
    · exact ⟨["sub"], rfl⟩
    · exact ⟨["sub", "b.txt"], rfl⟩
    · exact ⟨["dead"], rfl⟩

/-- C6: when the source path does not exist, the pipeline fails with the
source-not-found error before any side effect: the returned world is the
initial one — no staging file, no final artifact, no credential, no
scratch directory. -/
theorem C6_source_not_found (w : World) (cfg : RunCfg)
    (h : w.sourceExists = false) :
    runPipeline w cfg = some (w, [], Except.error PyErr.sourceNotFound) := by
  unfold runPipeline
  rw [h]
  simp

/-- C6 witness: a concrete world without a source, with unrelated content
already at the final path, is returned unchanged. -/
theorem C6_witness :
    runPipeline wNoSource cfgPlain =
      some (wNoSource, [], Except.error PyErr.sourceNotFound) :=
  C6_source_not_found wNoSource cfgPlain rfl

/-- C7: verification of any zero-entry archive fails and is classified as
an empty archive (`"ZIPファイルが空です"`), whatever the credential; the
builder itself is happy to produce such an archive from an empty
directory. -/
theorem C7_empty_archive_invalid (a : ZipArchive) (pwd : List Char)
    (h : a.entries = []) :
    verify_zip_integrity a pwd = (false, VerifyMsg.emptyZip) ∧
    (∀ (pw2 : List Char) (root : List String),
      (buildArchive pw2 (addFolder root [])).entries = []) := by
  constructor
  · unfold verify_zip_integrity
    rw [h]
    simp
  · intro pw2 root
    rfl

/-- C7 witness: a concrete empty archive, checked with a credential
different from its own. -/
theorem C7_witness :
    verify_zip_integrity ⟨['x'], []⟩ ['w'] = (false, VerifyMsg.emptyZip) :=
  (C7_empty_archive_invalid ⟨['x'], []⟩ ['w'] rfl).1

/-- C8: for a (nonempty) archive built with credential `pwd`, any other
credential makes `verify_zip_integrity` fail with the bad-password
message — a constructor distinct from the empty, corrupt-data and generic
messages — while the correct credential makes both `verify_zip_integrity`
and `test_extraction` succeed. -/
theorem C8_round_trip (pwd pwd2 : List Char) (names : List (List String))
    (hne : names ≠ []) (hp : pwd2 ≠ pwd) :
    verify_zip_integrity (buildArchive pwd names) pwd2 =
      (false, VerifyMsg.badPassword) ∧
    VerifyMsg.badPassword ≠ VerifyMsg.emptyZip ∧
    (∀ nm, VerifyMsg.badPassword ≠ VerifyMsg.corruptFile nm) ∧
    (∀ s, VerifyMsg.badPassword ≠ VerifyMsg.runtimeError s) ∧
    (∀ s, VerifyMsg.badPassword ≠ VerifyMsg.unexpectedError s) ∧
    verify_zip_integrity (buildArchive pwd names) pwd =
      (true, VerifyMsg.ok names.length) ∧
    test_extraction (buildArchive pwd names) pwd =
      (true, ExtractMsg.ok names.length) := by
  have hpw : (buildArchive pwd names).password = pwd := rfl
  have hent : (buildArchive pwd names).entries.isEmpty = false := by
    cases names with
    | nil => exact absurd rfl hne
    | cons a t => rfl
  refine ⟨?_, by simp, by simp, by simp, by simp, ?_, ?_⟩
  · unfold verify_zip_integrity
    rw [hent, hpw]
    simp [hp]
  · unfold verify_zip_integrity
    rw [hent, hpw]
    simp [buildArchive_crc_all_ok, buildArchive_entries_length]
  · unfold test_extraction
    rw [hpw]
    simp [buildArchive_crc_all_ok, buildArchive_entries_length]

/-- C8 witness: a concrete one-entry archive, checked with the wrong and
with the right credential. -/
theorem C8_witness :
    verify_zip_integrity (buildArchive ['a'] [["x.txt"]]) ['b'] =
      (false, VerifyMsg.badPassword) ∧
    verify_zip_integrity (buildArchive ['a'] [["x.txt"]]) ['a'] =
      (true, VerifyMsg.ok 1) ∧
    test_extraction (buildArchive ['a'] [["x.txt"]]) ['a'] =
      (true, ExtractMsg.ok 1) :=
  ⟨(C8_round_trip ['a'] ['b'] [["x.txt"]] (by decide) (by decide)).1,
   (C8_round_trip ['a'] ['b'] [["x.txt"]] (by decide) (by decide)).2.2.2.2.2.1,
   (C8_round_trip ['a'] ['b'] [["x.txt"]] (by decide) (by decide)).2.2.2.2.2.2⟩

/-- C9 (the bug): the extraction scratch directory is indeed removed on
every exit path without ever raising (`shutil.rmtree(..., ignore_errors=True)`),
but the staging-file cleanup in `_atomic_write` is an unguarded
`temp_path.unlink()` inside the `except` handler: when the build fails
and the unlink itself fails, the unlink error propagates instead of the
original build error — cleanup does raise, and it masks the original
failure — and the staging file is left behind. -/
theorem C9_cleanup_masks_original_error :
    (atomicWrite ⟨none, none⟩ archC9 (some 1) false true).2.2 =
      Except.error PyErr.unlinkErr ∧
    (atomicWrite ⟨none, none⟩ archC9 (some 1) false true).2.1.temp =
      some (FileData.building 1) ∧
    PyErr.unlinkErr ≠ PyErr.buildErr ∧
    (∀ (w : World) (a : ZipArchive) (pwd : List Char),
      ((testExtractionW w a pwd).1).scratchLive = w.scratchLive) := by
  refine ⟨rfl, rfl, by decide, ?_⟩
  intro w a pwd
  simp [testExtractionW]

/-- C1 counterexample: in a run whose build fails and whose staging
unlink also fails, the propagated error is the unlink error — not the
original build error — and the staging artifact is not deleted, refuting
the claim's failure-handling clause as stated. (The final path is still
untouched.) -/
theorem C1_counterexample :
    runPipeline wSrc cfgUnlinkFail =
      some (⟨true, none, some (FileData.building 0), 1, 0, 0⟩,
        [⟨none, none⟩, ⟨none, some (FileData.building 0)⟩,
          ⟨none, some (FileData.building 0)⟩],
        Except.error PyErr.unlinkErr) ∧
    PyErr.unlinkErr ≠ PyErr.buildErr := ⟨rfl, by decide⟩

/-- C1 amended: in every run, every observable state of the final output
path is its pre-operation state (absent or previous content) or a fully
written archive — never a partial one; and when the build fails before
commit, the final path ends untouched, and — provided the staging unlink
itself succeeds — the staging artifact is deleted and the original build
error is the propagated one (an unlink failure instead propagates the
unlink error and leaves the staging file behind). -/
theorem C1_atomic_commit (w : World) (cfg : RunCfg) (w2 : World)
    (tr : List FS) (r : Except PyErr (List Char))
    (h : runPipeline w cfg = some (w2, tr, r)) :
    (∀ s ∈ tr, s.final = w.fsFinal ∨ ∃ a, s.final = some (FileData.full a)) ∧
    (∀ j, w.sourceExists = true → cfg.failAt = some j →
      w2.fsFinal = w.fsFinal ∧
      (cfg.unlinkFails = false →
        r = Except.error PyErr.buildErr ∧ w2.fsTemp = none)) := by
  unfold runPipeline at h
  cases hsrc : w.sourceExists with
  | false =>
    rw [hsrc] at h
    rw [if_neg (show ¬(false = true) by decide)] at h
    have h' := Option.some.inj h
    obtain ⟨-, htr, -⟩ : w = w2 ∧ ([] : List FS) = tr ∧
        Except.error PyErr.sourceNotFound = r := by
      rw [Prod.ext_iff, Prod.ext_iff] at h'
      exact h'
    constructor
    · intro s hs
      rw [← htr] at hs
      exact absurd hs (List.not_mem_nil s)
    · intro j hj
      exact absurd hj (by decide)
  | true =>
    rw [hsrc, if_pos rfl] at h
    obtain ⟨pwd, hgen, htr, hfin, htemp, herr, -⟩ :=
      create_archive_spec w cfg w2 tr r h
    constructor
    · intro s hs
      rw [htr] at hs
      rcases atomicWrite_trace_final ⟨w.fsFinal, w.fsTemp⟩ _ cfg.failAt
        cfg.replaceFails cfg.unlinkFails s hs with hce | hce
      · exact Or.inl hce
      · exact Or.inr ⟨_, hce⟩
    · intro j hsE hfa
      rw [hfa] at hfin htemp herr
      constructor
      · rw [hfin]
        exact atomicWrite_build_fail_final ⟨w.fsFinal, w.fsTemp⟩ _ j
          cfg.replaceFails cfg.unlinkFails
      · intro hu
        rw [hu] at htemp herr
        obtain ⟨he, ht, -⟩ := atomicWrite_build_fail ⟨w.fsFinal, w.fsTemp⟩
          (buildArchive pwd (sourceEntries cfg.source)) j cfg.replaceFails
        exact ⟨herr PyErr.buildErr he, htemp.trans ht⟩

/-- C1 witness: a run whose build fails immediately and whose unlink
succeeds — every trace state keeps the final path absent, the staging
file is deleted, and the original build error is the outcome. -/
theorem C1_witness :
    (∀ s ∈ trC1, s.final = wSrc.fsFinal ∨
      ∃ a, s.final = some (FileData.full a)) ∧
    w2C1.fsFinal = wSrc.fsFinal ∧
    (Except.error PyErr.buildErr : Except PyErr (List Char)) =
      Except.error PyErr.buildErr ∧
    w2C1.fsTemp = none := by
  obtain ⟨h1, h2⟩ := C1_atomic_commit wSrc cfgBuildFail w2C1 trC1
    (Except.error PyErr.buildErr) rfl
  obtain ⟨h3, h4⟩ := h2 0 rfl rfl
  exact ⟨h1, h3, (h4 rfl).1, (h4 rfl).2⟩

/-- C10: the pipeline's public operation exposes no length parameter —
`create_archive` invokes `PasswordGenerator.generate()` with the default
`Config.PASSWORD_LENGTH` — so every credential a completed run returns
has length exactly 16. -/
theorem C10_credential_length_16 (w : World) (cfg : RunCfg) (w2 : World)
    (tr : List FS) (pwd : List Char)
    (h : runPipeline w cfg = some (w2, tr, Except.ok pwd)) :
    pwd.length = 16 ∧ PASSWORD_LENGTH = 16 := by
  refine ⟨?_, rfl⟩
  unfold runPipeline at h
  cases hsrc : w.sourceExists with
  | false =>
    rw [hsrc] at h
    simp at h
  | true =>
    rw [hsrc, if_pos rfl] at h
    obtain ⟨pwd0, hgen, -, -, -, -, hok⟩ :=
      create_archive_spec w cfg w2 tr (Except.ok pwd) h
    obtain rfl := hok pwd rfl
    exact (generateFrom_some_spec cfg.choose PASSWORD_LENGTH 0 cfg.fuel
      _ hgen).1

/-- C10 witness: a complete fault-free run, returning the concrete
16-character credential drawn by `chooseW`. -/
theorem C10_witness :
    runPipeline wSrc cfgPlain = some (w2C10, trC10, Except.ok pwdC10) ∧
    pwdC10.length = 16 :=
  ⟨rfl,
   (C10_credential_length_16 wSrc cfgPlain w2C10 trC10 pwdC10 rfl).1⟩

end SecureZipper
